import Mathlib

/-!
Verification of the odin_bots SIWB authenticator core: a shallow embedding of
`src/odin_bots/bip322.py`, `src/odin_bots/siwb.py`, `src/odin_bots/transfers.py`
and `src/odin_bots/cli/concurrent.py`, with theorems settling the frozen
claims about the BIP322 primitives, the fee-gated signing client, the login
delegation retry, the session cache and the per-bot concurrency runner.

Bytes are modelled as `Nat` values (< 256 where it matters), byte strings as
`List Nat`, and machine 32-bit words as `Nat` reduced `% 2^32` explicitly.
-/

deriving instance DecidableEq for Except

namespace OdinBots

/-! ### SHA-256 / SHA-224 (hashlib.sha256 / hashlib.sha224)

Modelled from the spec: FIPS 180-4 SHA-256/SHA-224, the algorithm behind
Python's `hashlib.sha256` / `hashlib.sha224` used by `bip322.py` (`sha256`,
`double_sha256`, `bip0322_hash`) and `siwb.py` (`hashlib.sha224` in the
bot-principal derivation). -/

def U32 : Nat := 4294967296

def rotr (n x : Nat) : Nat := ((x >>> n) ||| (x <<< (32 - n))) % U32

def bigSigma0 (x : Nat) : Nat := (rotr 2 x) ^^^ (rotr 13 x) ^^^ (rotr 22 x)

def bigSigma1 (x : Nat) : Nat := (rotr 6 x) ^^^ (rotr 11 x) ^^^ (rotr 25 x)

def smallSigma0 (x : Nat) : Nat := (rotr 7 x) ^^^ (rotr 18 x) ^^^ (x >>> 3)

def smallSigma1 (x : Nat) : Nat := (rotr 17 x) ^^^ (rotr 19 x) ^^^ (x >>> 10)

def shaCh (e f g : Nat) : Nat := (e &&& f) ^^^ ((e ^^^ 4294967295) &&& g)

def shaMaj (a b c : Nat) : Nat := (a &&& b) ^^^ (a &&& c) ^^^ (b &&& c)

/-- The 64 SHA-256 round constants (FIPS 180-4 §4.2.2, in decimal). -/
def shaK : List Nat :=
  [1116352408, 1899447441, 3049323471, 3921009573, 961987163,
   1508970993, 2453635748, 2870763221, 3624381080, 310598401,
   607225278, 1426881987, 1925078388, 2162078206, 2614888103,
   3248222580, 3835390401, 4022224774, 264347078, 604807628,
   770255983, 1249150122, 1555081692, 1996064986, 2554220882,
   2821834349, 2952996808, 3210313671, 3336571891, 3584528711,
   113926993, 338241895, 666307205, 773529912, 1294757372,
   1396182291, 1695183700, 1986661051, 2177026350, 2456956037,
   2730485921, 2820302411, 3259730800, 3345764771, 3516065817,
   3600352804, 4094571909, 275423344, 430227734, 506948616,
   659060556, 883997877, 958139571, 1322822218, 1537002063,
   1747873779, 1955562222, 2024104815, 2227730452, 2361852424,
   2428436474, 2756734187, 3204031479, 3329325298]

/-- SHA hash state: eight 32-bit words. -/
structure H8 where
  a : Nat
  b : Nat
  c : Nat
  d : Nat
  e : Nat
  f : Nat
  g : Nat
  h : Nat

/-- SHA-256 initial hash value (FIPS 180-4 §5.3.3, in decimal). -/
def iv256 : H8 :=
  ⟨1779033703, 3144134277, 1013904242, 2773480762,
   1359893119, 2600822924, 528734635, 1541459225⟩

/-- SHA-224 initial hash value (FIPS 180-4 §5.3.2, in decimal). -/
def iv224 : H8 :=
  ⟨3238371032, 914150663, 812702999, 4144912697,
   4290775857, 1750603025, 1694076839, 3204075428⟩

/-- Big-endian 4-byte grouping of a byte list into 32-bit words. -/
def toWordsBE : List Nat → List Nat
  | b0 :: b1 :: b2 :: b3 :: rest =>
      (b0 * 16777216 + b1 * 65536 + b2 * 256 + b3) :: toWordsBE rest
  | _ => []

/-- 8-byte big-endian encoding of the bit length in SHA padding. -/
def be64 (n : Nat) : List Nat :=
  [(n >>> 56) % 256, (n >>> 48) % 256, (n >>> 40) % 256, (n >>> 32) % 256,
   (n >>> 24) % 256, (n >>> 16) % 256, (n >>> 8) % 256, n % 256]

/-- Merkle–Damgård padding: `0x80`, zeros to 56 mod 64, 64-bit bit length. -/
def shaPad (msg : List Nat) : List Nat :=
  msg ++ [0x80] ++ List.replicate ((119 - msg.length % 64) % 64) 0
      ++ be64 (msg.length * 8)

/-- Split a word list into successive 16-word blocks (`fuel` bounds depth). -/
def toBlocks : Nat → List Nat → List (List Nat)
  | 0, _ => []
  | _, [] => []
  | fuel + 1, ws => ws.take 16 :: toBlocks fuel (ws.drop 16)

/-- Message-schedule extension on a reversed word list (head = newest). -/
def schedExtend (rev : List Nat) : Nat → List Nat
  | 0 => rev
  | n + 1 =>
      let w := (smallSigma1 (rev.getD 1 0) + rev.getD 6 0
                + smallSigma0 (rev.getD 14 0) + rev.getD 15 0) % U32
      schedExtend (w :: rev) n

/-- Full 64-word message schedule of one 16-word block. -/
def schedule (block : List Nat) : List Nat :=
  (schedExtend block.reverse 48).reverse

/-- One SHA-256 compression round. -/
def shaStep (st : H8) (kw : Nat × Nat) : H8 :=
  let t1 := (st.h + bigSigma1 st.e + shaCh st.e st.f st.g + kw.1 + kw.2) % U32
  let t2 := (bigSigma0 st.a + shaMaj st.a st.b st.c) % U32
  ⟨(t1 + t2) % U32, st.a, st.b, st.c, (st.d + t1) % U32, st.e, st.f, st.g⟩

/-- Compress one 16-word block into the running hash state. -/
def compressBlock (st : H8) (block : List Nat) : H8 :=
  let f := (shaK.zip (schedule block)).foldl shaStep st
  ⟨(st.a + f.a) % U32, (st.b + f.b) % U32, (st.c + f.c) % U32,
   (st.d + f.d) % U32, (st.e + f.e) % U32, (st.f + f.f) % U32,
   (st.g + f.g) % U32, (st.h + f.h) % U32⟩

/-- Core SHA-2 over bytes from a given initial state. -/
def shaCore (iv : H8) (msg : List Nat) : H8 :=
  let ws := toWordsBE (shaPad msg)
  (toBlocks ws.length ws).foldl compressBlock iv

/-- Big-endian bytes of one 32-bit word. -/
def wordBytes (w : Nat) : List Nat :=
  [(w >>> 24) % 256, (w >>> 16) % 256, (w >>> 8) % 256, w % 256]

/-- Serialize a hash state to its 32 output bytes. -/
def h8Bytes (st : H8) : List Nat :=
  wordBytes st.a ++ wordBytes st.b ++ wordBytes st.c ++ wordBytes st.d ++
  wordBytes st.e ++ wordBytes st.f ++ wordBytes st.g ++ wordBytes st.h

/-- `hashlib.sha256(msg).digest()`. -/
def sha256 (msg : List Nat) : List Nat := h8Bytes (shaCore iv256 msg)

/-- `hashlib.sha224(msg).digest()`: SHA-256 with the SHA-224 IV, truncated. -/
def sha224 (msg : List Nat) : List Nat := (h8Bytes (shaCore iv224 msg)).take 28

/-- `double_sha256` from `bip322.py`: SHA-256 applied twice. -/
def double_sha256 (data : List Nat) : List Nat := sha256 (sha256 data)

/-! ### UTF-8 and hex encodings (str.encode / bytes.hex / bytes.fromhex) -/

/-- UTF-8 encoding of one character (Python `str.encode("utf-8")`). -/
def utf8Char (c : Char) : List Nat :=
  let n := c.toNat
  if n < 128 then [n]
  else if n < 2048 then [192 + n / 64, 128 + n % 64]
  else if n < 65536 then [224 + n / 4096, 128 + (n / 64) % 64, 128 + n % 64]
  else [240 + n / 262144, 128 + (n / 4096) % 64, 128 + (n / 64) % 64, 128 + n % 64]

/-- UTF-8 encoding of a string as a byte list. -/
def utf8 (s : String) : List Nat := (s.data.map utf8Char).flatten

/-- Lowercase hex digit for a nibble. -/
def hexNibble (n : Nat) : Char :=
  if n < 10 then Char.ofNat (48 + n) else Char.ofNat (87 + n)

/-- Two hex digits of one byte. -/
def byteHex (b : Nat) : List Char := [hexNibble (b / 16), hexNibble (b % 16)]

/-- `bytes.hex()`: lowercase hex string of a byte list. -/
def toHexString (bs : List Nat) : String := String.mk ((bs.map byteHex).flatten)

/-- Value of one hex digit, or `none`. -/
def hexDigitVal (c : Char) : Option Nat :=
  if 48 ≤ c.toNat ∧ c.toNat ≤ 57 then some (c.toNat - 48)
  else if 97 ≤ c.toNat ∧ c.toNat ≤ 102 then some (c.toNat - 87)
  else if 65 ≤ c.toNat ∧ c.toNat ≤ 70 then some (c.toNat - 55)
  else none

/-- `bytes.fromhex` on a char list: pairs of hex digits, else failure. -/
def hexDecodeList : List Char → Option (List Nat)
  | [] => some []
  | [_] => none
  | c1 :: c2 :: rest => do
      let h ← hexDigitVal c1
      let l ← hexDigitVal c2
      let bs ← hexDecodeList rest
      pure ((h * 16 + l) :: bs)

/-- `bytes.fromhex` on a string. -/
def hexDecode (s : String) : Option (List Nat) := hexDecodeList s.data

/-! ### BIP0322 tagged hash (`bip0322_hash` in bip322.py) -/

/-- SHA-256 of the literal tag `"BIP0322-signed-message"`. -/
def bip0322TagHash : List Nat := sha256 (utf8 "BIP0322-signed-message")

/-- `bip0322_hash` digest bytes: `SHA256(tagHash || tagHash || utf8(message))`. -/
def bip0322HashBytes (message : String) : List Nat :=
  sha256 (bip0322TagHash ++ bip0322TagHash ++ utf8 message)

/-- `bip0322_hash(message)` from bip322.py: the digest as lowercase hex. -/
def bip0322_hash (message : String) : String := toHexString (bip0322HashBytes message)

/-! ### Varints and the toSpend virtual transaction (bip322.py) -/

/-- Little-endian 2-byte encoding (`struct.pack("<H", n)`). -/
def le16 (n : Nat) : List Nat := [n % 256, (n >>> 8) % 256]

/-- Little-endian 4-byte encoding (`struct.pack("<I", n)`). -/
def le32 (n : Nat) : List Nat :=
  [n % 256, (n >>> 8) % 256, (n >>> 16) % 256, (n >>> 24) % 256]

/-- Little-endian 8-byte encoding (`struct.pack("<q", n)`, `n ≥ 0`). -/
def le64 (n : Nat) : List Nat :=
  [n % 256, (n >>> 8) % 256, (n >>> 16) % 256, (n >>> 24) % 256,
   (n >>> 32) % 256, (n >>> 40) % 256, (n >>> 48) % 256, (n >>> 56) % 256]

/-- `encode_varint` from bip322.py: Bitcoin compact-size integer. -/
def encode_varint (n : Nat) : List Nat :=
  if n < 253 then [n]
  else if n ≤ 0xFFFF then 0xfd :: le16 n
  else if n ≤ 0xFFFFFFFF then 0xfe :: le32 n
  else 0xff :: le64 n

/-- `encode_var_string` from bip322.py: varint-length-prefixed byte string. -/
def encode_var_string (b : List Nat) : List Nat := encode_varint b.length ++ b

/-- `_serialise_to_spend(message, script_pubkey_bytes)` from bip322.py. -/
def serialise_to_spend (message : String) (script_pubkey_bytes : List Nat) : List Nat :=
  let version := [0, 0, 0, 0]
  let vin_count := encode_varint 1
  let txid := List.replicate 32 0
  let vout := le32 0xFFFFFFFF
  let msg_hash := bip0322HashBytes message
  let script_sig := 0x00 :: 0x20 :: msg_hash
  let script_sig_enc := encode_var_string script_sig
  let sequence := [0, 0, 0, 0]
  let vin := txid ++ vout ++ script_sig_enc ++ sequence
  let vout_count := encode_varint 1
  let amount := le64 0
  let spk_enc := encode_var_string script_pubkey_bytes
  let tx_out := amount ++ spk_enc
  let locktime := [0, 0, 0, 0]
  version ++ vin_count ++ vin ++ vout_count ++ tx_out ++ locktime

/-- `_to_spend_txid` from bip322.py, as raw display-order bytes:
the byte-reversed double SHA-256 of the serialised toSpend transaction. -/
def to_spend_txid_bytes (message : String) (script_pubkey_bytes : List Nat) : List Nat :=
  (double_sha256 (serialise_to_spend message script_pubkey_bytes)).reverse

/-- `_to_spend_txid` from bip322.py (hex string, display order). -/
def to_spend_txid (message : String) (script_pubkey_bytes : List Nat) : String :=
  toHexString (to_spend_txid_bytes message script_pubkey_bytes)

/-! ### Base64 (Python base64.b64encode / b64decode) -/

/-- The base64 alphabet character of a 6-bit value. -/
def b64Char (v : Nat) : Char :=
  if v < 26 then Char.ofNat (65 + v)
  else if v < 52 then Char.ofNat (97 + (v - 26))
  else if v < 62 then Char.ofNat (48 + (v - 52))
  else if v = 62 then Char.ofNat 43
  else Char.ofNat 47

/-- 6-bit value of a base64 character, or `none`. -/
def b64Val (c : Char) : Option Nat :=
  let n := c.toNat
  if 65 ≤ n ∧ n ≤ 90 then some (n - 65)
  else if 97 ≤ n ∧ n ≤ 122 then some (n - 97 + 26)
  else if 48 ≤ n ∧ n ≤ 57 then some (n - 48 + 52)
  else if n = 43 then some 62
  else if n = 47 then some 63
  else none

/-- `base64.b64encode` on a byte list, with `=` padding. -/
def b64encodeList : List Nat → List Char
  | [] => []
  | [a] => [b64Char (a / 4), b64Char (a % 4 * 16), '=', '=']
  | [a, b] => [b64Char (a / 4), b64Char (a % 4 * 16 + b / 16),
               b64Char (b % 16 * 4), '=']
  | a :: b :: c :: rest =>
      b64Char (a / 4) :: b64Char (a % 4 * 16 + b / 16) ::
      b64Char (b % 16 * 4 + c / 64) :: b64Char (c % 64) :: b64encodeList rest

/-- `base64.b64encode(..).decode("ascii")`. -/
def b64encode (bs : List Nat) : String := String.mk (b64encodeList bs)

/-- `base64.b64decode` on a char list: groups of four, `=` padding only at
the very end; anything else is a decode error (`none`). -/
def b64decodeList : List Char → Option (List Nat)
  | [] => some []
  | [_] => none
  | [_, _] => none
  | [_, _, _] => none
  | c1 :: c2 :: c3 :: c4 :: rest =>
      match b64Val c1, b64Val c2 with
      | some v1, some v2 =>
          if c3 = '=' then
            if c4 = '=' ∧ rest = [] then some [v1 * 4 + v2 / 16] else none
          else
            match b64Val c3 with
            | none => none
            | some v3 =>
                if c4 = '=' then
                  if rest = [] then some [v1 * 4 + v2 / 16, v2 % 16 * 16 + v3 / 4]
                  else none
                else
                  match b64Val c4, b64decodeList rest with
                  | some v4, some bs =>
                      some ((v1 * 4 + v2 / 16) :: (v2 % 16 * 16 + v3 / 4) ::
                            (v3 % 4 * 64 + v4) :: bs)
                  | _, _ => none
      | _, _ => none

/-- `base64.b64decode` on a string. -/
def b64decode (s : String) : Option (List Nat) := b64decodeList s.data

/-! ### Witness encoding (bip322.py) -/

/-- Errors signalled by the embedded bip322/siwb functions. -/
inductive PyError where
  /-- `ValueError("non-hexadecimal number found ...")` from `bytes.fromhex`. -/
  | invalidHex : PyError
  /-- `ValueError(f"Expected 64-byte signature, got {n}")`. -/
  | invalidSignatureLength (got : Nat) : PyError
deriving DecidableEq, Repr

/-- `encode_witness(signature_hex)` from bip322.py: hex-decode, require
exactly 64 bytes, emit `varint(1) || varint_len(64) || sig` as base64. -/
def encode_witness (signature_hex : String) : Except PyError String :=
  match hexDecode signature_hex with
  | none => .error .invalidHex
  | some sig_bytes =>
      if sig_bytes.length ≠ 64 then .error (.invalidSignatureLength sig_bytes.length)
      else .ok (b64encode (encode_varint 1 ++ encode_var_string sig_bytes))

/-- `inject_signature_and_extract_witness(message, pubkey_hex, signature_hex)`
from bip322.py.  The `message` and `pubkey_hex` parameters are accepted but
the witness is computed from the signature alone, as in the source. -/
def inject_signature_and_extract_witness
    (_message : String) (_pubkey_hex : String) (signature_hex : String) :
    Except PyError String :=
  match hexDecode signature_hex with
  | none => .error .invalidHex
  | some sig_bytes =>
      if sig_bytes.length ≠ 64 then .error (.invalidSignatureLength sig_bytes.length)
      else .ok (b64encode (encode_varint 1 ++ encode_var_string sig_bytes))

/-! ### secp256k1, Taproot output key, bech32m

Modelled from the spec: bip322.py delegates elliptic-curve and bech32m math
to the `bitcoin-utils` library (`PublicKey("02" + pubkey_hex)`,
`get_taproot_address()`); this section embeds that behaviour following the
public BIP340/BIP341 (Taproot tweak) and BIP350 (bech32m) definitions the
library implements. -/

/-- secp256k1 field prime. -/
def pSec : Nat := 0xFFFFFFFFFFFFFFFFFFFFFFFFFFFFFFFFFFFFFFFFFFFFFFFFFFFFFFFEFFFFFC2F

/-- secp256k1 group order. -/
def nSec : Nat := 0xFFFFFFFFFFFFFFFFFFFFFFFFFFFFFFFEBAAEDCE6AF48A03BBFD25E8CD0364141

/-- secp256k1 base point x. -/
def gX : Nat := 0x79BE667EF9DCBBAC55A06295CE870B07029BFCDB2DCE28D959F2815B16F81798

/-- secp256k1 base point y. -/
def gY : Nat := 0x483ADA7726A3C4655DA4FBFC0E1108A8FD17B448A68554199C47D08FFB10D4B8

/-- Modular exponentiation by binary decomposition (`fuel` bounds depth). -/
def powModAux (m : Nat) : Nat → Nat → Nat → Nat
  | 0, _b, _e => 1 % m
  | fuel + 1, b, e =>
      if e = 0 then 1 % m
      else
        let r := powModAux m fuel ((b * b) % m) (e / 2)
        if e % 2 = 1 then (b * r) % m else r

/-- `pow(b, e, m)` for exponents below `2 ^ 300`. -/
def powMod (b e m : Nat) : Nat := powModAux m 300 (b % m) e

/-- Field addition mod the secp256k1 prime. -/
def addF (a b : Nat) : Nat := (a + b) % pSec

/-- Field subtraction mod the secp256k1 prime. -/
def subF (a b : Nat) : Nat := (a % pSec + (pSec - b % pSec)) % pSec

/-- Field multiplication mod the secp256k1 prime. -/
def mulF (a b : Nat) : Nat := (a * b) % pSec

/-- Jacobian projective point; `z = 0` encodes the point at infinity. -/
structure JPoint where
  x : Nat
  y : Nat
  z : Nat

/-- Jacobian point doubling on `y² = x³ + 7`. -/
def jDouble (P : JPoint) : JPoint :=
  if P.z = 0 then ⟨0, 1, 0⟩ else
  let y2 := mulF P.y P.y
  let S := mulF 4 (mulF P.x y2)
  let M := mulF 3 (mulF P.x P.x)
  let X := subF (mulF M M) (mulF 2 S)
  let Y := subF (mulF M (subF S X)) (mulF 8 (mulF y2 y2))
  let Z := mulF 2 (mulF P.y P.z)
  ⟨X, Y, Z⟩

/-- Mixed Jacobian + affine point addition. -/
def jAddMixed (P : JPoint) (x2 y2 : Nat) : JPoint :=
  if P.z = 0 then ⟨x2 % pSec, y2 % pSec, 1⟩
  else
    let z1z1 := mulF P.z P.z
    let U2 := mulF x2 z1z1
    let S2 := mulF y2 (mulF P.z z1z1)
    if U2 = P.x then
      if S2 = P.y then jDouble P else ⟨0, 1, 0⟩
    else
      let H := subF U2 P.x
      let HH := mulF H H
      let HHH := mulF H HH
      let R := subF S2 P.y
      let V := mulF P.x HH
      let X3 := subF (subF (mulF R R) HHH) (mulF 2 V)
      let Y3 := subF (mulF R (subF V X3)) (mulF P.y HHH)
      let Z3 := mulF P.z H
      ⟨X3, Y3, Z3⟩

/-- Left-to-right double-and-add scalar multiple of an affine point. -/
def jScalarMulAux (k x y : Nat) : Nat → JPoint → JPoint
  | 0, acc => acc
  | i + 1, acc =>
      let acc := jDouble acc
      let acc := if k.testBit i then jAddMixed acc x y else acc
      jScalarMulAux k x y i acc

/-- `k · (x, y)` in Jacobian coordinates, for `k < 2 ^ 256`. -/
def jScalarMul (k x y : Nat) : JPoint := jScalarMulAux k x y 256 ⟨0, 1, 0⟩

/-- Back to affine coordinates; `none` at infinity. -/
def jToAffine (P : JPoint) : Option (Nat × Nat) :=
  if P.z = 0 then none
  else
    let zinv := powMod P.z (pSec - 2) pSec
    let zinv2 := mulF zinv zinv
    some (mulF P.x zinv2, mulF P.y (mulF zinv zinv2))

/-- Decompress a `02`-prefixed key: the curve point with this x and even y. -/
def liftXEven (x : Nat) : Option (Nat × Nat) :=
  if pSec ≤ x then none
  else
    let c := (powMod x 3 pSec + 7) % pSec
    let y := powMod c ((pSec + 1) / 4) pSec
    if mulF y y ≠ c then none
    else some (x, if y % 2 = 0 then y else pSec - y)

/-- Big-endian bytes of `n`, fixed width `len`. -/
def natToBytesBE : Nat → Nat → List Nat
  | 0, _ => []
  | len + 1, n => natToBytesBE len (n / 256) ++ [n % 256]

/-- Big-endian integer value of a byte list. -/
def bytesToNatBE (bs : List Nat) : Nat := bs.foldl (fun acc b => acc * 256 + b) 0

/-- BIP340-style tagged hash: `SHA256(SHA256(tag) || SHA256(tag) || data)`. -/
def taggedHash (tag : String) (data : List Nat) : List Nat :=
  let th := sha256 (utf8 tag)
  sha256 (th ++ th ++ data)

/-- The BIP341 taproot tweak scalar of an x-only internal key. -/
def taprootTweak (x : Nat) : Nat :=
  bytesToNatBE (taggedHash "TapTweak" (natToBytesBE 32 x))

/-- X-coordinate of the taproot output key `Q = lift_x(x) + t·G`. -/
def taprootOutputKeyX (x : Nat) : Option Nat := do
  let P ← liftXEven x
  let t := taprootTweak x
  if nSec ≤ t then none
  else
    let TG := jScalarMul t gX gY
    let Q := jAddMixed TG P.1 P.2
    let A ← jToAffine Q
    pure A.1

/-- The bech32 character set (BIP173). -/
def bech32Charset : List Char := "qpzry9x8gf2tvdw0s3jn54khce6mua7l".data

/-- One step of the bech32 checksum polymod. -/
def bech32PolymodStep (chk v : Nat) : Nat :=
  let b := chk >>> 25
  let c0 := (((chk &&& 0x1ffffff) <<< 5) ^^^ v)
  let c1 := if b &&& 1 ≠ 0 then c0 ^^^ 0x3b6a57b2 else c0
  let c2 := if (b >>> 1) &&& 1 ≠ 0 then c1 ^^^ 0x26508e6d else c1
  let c3 := if (b >>> 2) &&& 1 ≠ 0 then c2 ^^^ 0x1ea119fa else c2
  let c4 := if (b >>> 3) &&& 1 ≠ 0 then c3 ^^^ 0x3d4233dd else c3
  if (b >>> 4) &&& 1 ≠ 0 then c4 ^^^ 0x2a1462b3 else c4

/-- The bech32 checksum polymod of a value sequence. -/
def bech32Polymod (vs : List Nat) : Nat := vs.foldl bech32PolymodStep 1

/-- Human-readable-part expansion for the bech32 checksum. -/
def bech32HrpExpand (hrp : String) : List Nat :=
  hrp.data.map (fun c => c.toNat >>> 5) ++ [0] ++ hrp.data.map (fun c => c.toNat &&& 31)

/-- Regroup 8-bit bytes into 5-bit values, zero-padding the tail (BIP173). -/
def conv85 : List Nat → Nat → Nat → List Nat
  | [], _, 0 => []
  | [], acc, bits => [(acc <<< (5 - bits)) &&& 31]
  | b :: rest, acc, bits =>
      let acc2 := (acc <<< 8) ||| (b &&& 255)
      let bits2 := bits + 8
      if 10 ≤ bits2 then
        ((acc2 >>> (bits2 - 5)) &&& 31) :: ((acc2 >>> (bits2 - 10)) &&& 31) ::
          conv85 rest acc2 (bits2 - 10)
      else
        ((acc2 >>> (bits2 - 5)) &&& 31) :: conv85 rest acc2 (bits2 - 5)

/-- The six bech32m checksum values (BIP350 constant `0x2bc830a3`). -/
def bech32mChecksum (hrp : String) (data : List Nat) : List Nat :=
  let pm := bech32Polymod (bech32HrpExpand hrp ++ data ++ [0, 0, 0, 0, 0, 0]) ^^^ 0x2bc830a3
  (List.range 6).map (fun i => (pm >>> (5 * (5 - i))) &&& 31)

/-- bech32m string of a data-value sequence. -/
def bech32mEncode (hrp : String) (data : List Nat) : String :=
  hrp ++ "1" ++ String.mk ((data ++ bech32mChecksum hrp data).map
    (fun v => bech32Charset.getD v 'q'))

/-- The segwit-v1 (P2TR) address of a taproot output-key x-coordinate. -/
def p2trAddressOfX (qx : Nat) : String :=
  bech32mEncode "bc" (1 :: conv85 (natToBytesBE 32 qx) 0 0)

/-- The P2TR scriptPubKey `OP_1 PUSH32 <qx>` of a taproot output key. -/
def p2trScriptPubKey (qx : Nat) : List Nat := 0x51 :: 0x20 :: natToBytesBE 32 qx

/-- `derive_address(pubkey_hex)` from bip322.py: mainnet P2TR address of a
32-byte x-only public key, `none` when the hex or the point is invalid. -/
def derive_address (pubkey_hex : String) : Option String :=
  match hexDecode pubkey_hex with
  | none => none
  | some bs =>
      if bs.length ≠ 32 then none
      else
        match taprootOutputKeyX (bytesToNatBE bs) with
        | none => none
        | some qx => some (p2trAddressOfX qx)

/-! ### BIP341 key-path sighash and `compute_sighash` (bip322.py) -/

/-- Modelled from the spec: the BIP341 key-path signature hash computed by
`bitcoin-utils`' `get_transaction_taproot_digest(txin_index=0,
script_pubkeys=[spk], amounts=[0], sighash=SIGHASH_DEFAULT)` for the BIP322
toSign transaction: version 0, locktime 0, one input spending
`(prevoutTxid, 0)` with sequence 0 and no annex, one `OP_RETURN` output of
amount 0.  `prevoutTxid` is in internal byte order. -/
def taprootSighashDefault (prevoutTxid : List Nat) (spk : List Nat) : List Nat :=
  let shaPrevouts := sha256 (prevoutTxid ++ le32 0)
  let shaAmounts := sha256 (le64 0)
  let shaScriptPubKeys := sha256 (encode_var_string spk)
  let shaSequences := sha256 (le32 0)
  let shaOutputs := sha256 (le64 0 ++ encode_var_string [0x6a])
  taggedHash "TapSighash"
    ([0x00, 0x00] ++ le32 0 ++ le32 0 ++ shaPrevouts ++ shaAmounts
      ++ shaScriptPubKeys ++ shaSequences ++ shaOutputs ++ [0x00] ++ le32 0)

/-- Result of `compute_sighash`: the dict `{"sighash": ..., "address": ...}`. -/
structure SighashResult where
  sighash : String
  address : String
deriving DecidableEq

/-- `compute_sighash(message, pubkey_hex)` from bip322.py: derive the P2TR
scriptPubKey and address, serialise the toSpend transaction, and compute the
BIP341 key-path sighash of the toSign transaction spending it. -/
def compute_sighash (message : String) (pubkey_hex : String) :
    Option SighashResult :=
  match hexDecode pubkey_hex with
  | none => none
  | some bs =>
      if bs.length ≠ 32 then none
      else
        match taprootOutputKeyX (bytesToNatBE bs) with
        | none => none
        | some qx =>
            let spk := p2trScriptPubKey qx
            let prevTxid := double_sha256 (serialise_to_spend message spk)
            some ⟨toHexString (taprootSighashDefault prevTxid spk),
                  p2trAddressOfX qx⟩

/-! ### Fee-gated remote signer (siwb.py `_approve_fee_if_required`,
`sign_with_fee`, `_get_public_key`; transfers.py `CKBTC_FEE`)

Remote canister calls are modelled by an environment of `Ok`/`Err` responses;
each function returns the ordered list of remote calls it issued together
with its result. -/

/-- `CKBTC_FEE` from transfers.py: the ckBTC ledger transfer fee (satoshis). -/
def CKBTC_FEE : Nat := 10

/-- A fee-token entry from the ckSigner `getFeeTokens` response. -/
structure FeeToken where
  tokenName : String
  tokenLedger : String
  fee : Nat
deriving DecidableEq

/-- A payment record passed to priced ckSigner calls (`opt` as a list). -/
structure Payment where
  tokenName : String
  tokenLedger : String
  amount : Nat
deriving DecidableEq

/-- A canister-call result: the `{"Ok": ...} / {"Err": ...}` variant. -/
abbrev CanResult (α : Type) := Except String α

/-- The remote calls the signer-side functions can issue, in order. -/
inductive SignerAction where
  /-- The free `getPublicKeyQuery` query call. -/
  | queryGetPublicKey (botName : String)
  /-- The free `getFeeTokens` query call. -/
  | getFeeTokens
  /-- `icrc2_approve` on the ckBTC ledger for the given amount. -/
  | approve (amount : Nat)
  /-- The priced `getPublicKey` update call with its payment record. -/
  | pricedGetPublicKey (botName : String) (payment : List Payment)
  /-- The priced `sign` update call with its payment record. -/
  | pricedSign (botName : String) (message : List Nat) (payment : List Payment)
deriving DecidableEq

/-- Errors raised (`RuntimeError` and friends) by the embedded siwb.py flow. -/
inductive SiwbError where
  | getFeeTokensFailed (e : String)
  | unsupportedFeeToken
  | noWalletAgent
  | approveFailed (e : String)
  | getPublicKeyFailed (e : String)
  | invalidPubKey
  | addressMismatch
  | prepareLoginFailed (e : String)
  | sighashAddressMismatch
  | signFailed (e : String)
  | witnessError (e : PyError)
  | loginFailed (e : String)
  | delegationUnavailable (e : String)
  | jwtExchangeFailed (status : Nat)
  | noTokenInResponse
deriving DecidableEq

/-- Environment of remote responses for the ckSigner-side functions. -/
structure SignerEnv where
  /-- Result of the free `getPublicKeyQuery` call. -/
  queryResult : CanResult (String × String)
  /-- Result of `getFeeTokens`. -/
  feeTokensResult : CanResult (List FeeToken)
  /-- Result of `icrc2_approve` on the ckBTC ledger. -/
  approveResult : CanResult Nat
  /-- Whether a wallet agent was provided for fee payment. -/
  walletAgent : Bool
  /-- Result of the priced `getPublicKey` update call. -/
  pricedPubKeyResult : CanResult (String × String)
  /-- Result of the priced `sign` update call (`signatureHex`). -/
  signResult : CanResult String

/-- `_approve_fee_if_required(cksigner, wallet_agent)` from siwb.py: query
the fee schedule; with no fee tokens return the empty payment; otherwise
locate the ckBTC fee token, `icrc2_approve` `fee + CKBTC_FEE`, and return
the payment record carrying `fee`. -/
def approve_fee_if_required (env : SignerEnv) :
    List SignerAction × Except SiwbError (List Payment) :=
  match env.feeTokensResult with
  | .error e => ([.getFeeTokens], .error (.getFeeTokensFailed e))
  | .ok feeTokens =>
      if feeTokens.isEmpty then ([.getFeeTokens], .ok [])
      else
        match feeTokens.find? (fun ft => ft.tokenName = "ckBTC") with
        | none => ([.getFeeTokens], .error .unsupportedFeeToken)
        | some ft =>
            if ¬ env.walletAgent then ([.getFeeTokens], .error .noWalletAgent)
            else
              match env.approveResult with
              | .error e =>
                  ([.getFeeTokens, .approve (ft.fee + CKBTC_FEE)],
                   .error (.approveFailed e))
              | .ok _blockIndex =>
                  ([.getFeeTokens, .approve (ft.fee + CKBTC_FEE)],
                   .ok [⟨"ckBTC", ft.tokenLedger, ft.fee⟩])

/-- `sign_with_fee(cksigner, wallet_agent, bot_name, message)` from siwb.py:
fee approval if required, then the priced `sign` call; the unwrapped sign
result is returned to the caller, which checks it for `"Err"` itself. -/
def sign_with_fee (env : SignerEnv) (bot_name : String) (message : List Nat) :
    List SignerAction × Except SiwbError (CanResult String) :=
  match approve_fee_if_required env with
  | (tr, .error e) => (tr, .error e)
  | (tr, .ok payment) =>
      (tr ++ [.pricedSign bot_name message payment], .ok env.signResult)

/-- `_get_public_key(cksigner, bot_name, wallet_agent)` from siwb.py: free
query first; on an error response fall back to the fee-gated priced
`getPublicKey` update call. -/
def get_public_key (env : SignerEnv) (bot_name : String) :
    List SignerAction × Except SiwbError (String × String) :=
  match env.queryResult with
  | .ok r => ([.queryGetPublicKey bot_name], .ok r)
  | .error _ =>
      match approve_fee_if_required env with
      | (tr, .error e) => (.queryGetPublicKey bot_name :: tr, .error e)
      | (tr, .ok payment) =>
          match env.pricedPubKeyResult with
          | .error e =>
              (.queryGetPublicKey bot_name :: tr
                 ++ [.pricedGetPublicKey bot_name payment],
               .error (.getPublicKeyFailed e))
          | .ok r =>
              (.queryGetPublicKey bot_name :: tr
                 ++ [.pricedGetPublicKey bot_name payment],
               .ok r)

/-! ### SIWB login flow (siwb.py `siwb_login`) -/

/-- A signed delegation from `siwb_get_delegation`. -/
structure SignedDelegation where
  pubkey : List Nat
  expiration : Nat
  signature : List Nat
deriving DecidableEq

/-- Observable events of the delegation-fetch step. -/
inductive LoginEvent where
  /-- One `siwb_get_delegation` canister call (0-based attempt index). -/
  | delegationCall (attempt : Nat)
  /-- One `time.sleep(n)`. -/
  | sleepSeconds (n : Nat)
deriving DecidableEq

/-- The `for attempt in range(5)` retry loop of siwb.py step 8: call
`siwb_get_delegation`; break on `Ok`; otherwise sleep 2 seconds and retry.
`prev` carries the last error for the post-loop `"Err"` check. -/
def delegationLoopAux (call : Nat → CanResult SignedDelegation) (prev : String) :
    Nat → Nat → List LoginEvent × CanResult SignedDelegation
  | _, 0 => ([], .error prev)
  | attempt, fuel + 1 =>
      match call attempt with
      | .ok d => ([.delegationCall attempt], .ok d)
      | .error e =>
          let r := delegationLoopAux call e (attempt + 1) fuel
          (.delegationCall attempt :: .sleepSeconds 2 :: r.1, r.2)

/-- The delegation-fetch step: at most 5 attempts starting at attempt 0. -/
def delegationLoop (call : Nat → CanResult SignedDelegation) :
    List LoginEvent × CanResult SignedDelegation :=
  delegationLoopAux call "" 0 5

/-- Count of `siwb_get_delegation` calls in an event list. -/
def delegationCallCount (events : List LoginEvent) : Nat :=
  (events.filter fun e => match e with
    | .delegationCall _ => true
    | _ => false).length

/-- `principal_bytes` from siwb.py step 8:
`hashlib.sha224(user_canister_pubkey).digest() + b"\x02"`. -/
def bot_principal_bytes (user_canister_pubkey : List Nat) : List Nat :=
  sha224 user_canister_pubkey ++ [0x02]

/-- Environment of remote responses for the full `siwb_login` flow. -/
structure LoginEnv where
  /-- ckSigner-side responses. -/
  signer : SignerEnv
  /-- The bot being logged in. -/
  bot_name : String
  /-- `siwb_prepare_login(address)`: the challenge message. -/
  prepareResult : CanResult String
  /-- DER public key of the freshly generated Ed25519 session identity. -/
  sessionPubkeyDer : List Nat
  /-- `siwb_login(...)`: `(expiration, user_canister_pubkey)`. -/
  loginResult : CanResult (Nat × List Nat)
  /-- `siwb_get_delegation` response per 0-based attempt index. -/
  delegationCall : Nat → CanResult SignedDelegation
  /-- HTTP status of `POST /auth` (JWT exchange). -/
  authStatus : Nat
  /-- The `token` field of the `POST /auth` response body, if present. -/
  authToken : Option String

/-- The auth context `siwb_login` returns (claim-relevant fields). -/
structure LoginSession where
  jwt_token : String
  bot_principal_bytes : List Nat
  address : String
  witness_b64 : String
  bot_name : String
deriving DecidableEq

/-- `siwb_login(bot_name)` from siwb.py: the full challenge → delegation →
bearer-token sequence, returning the issued ckSigner calls, the
delegation-step events, and the session or the first fatal error. -/
def siwb_login (env : LoginEnv) :
    List SignerAction × List LoginEvent × Except SiwbError LoginSession :=
  match get_public_key env.signer env.bot_name with
  | (tr, .error e) => (tr, [], .error e)
  | (tr, .ok (pubkey_hex, address)) =>
    match derive_address pubkey_hex with
    | none => (tr, [], .error .invalidPubKey)
    | some local_address =>
      if local_address ≠ address then (tr, [], .error .addressMismatch)
      else
        match env.prepareResult with
        | .error e => (tr, [], .error (.prepareLoginFailed e))
        | .ok message =>
          match compute_sighash message pubkey_hex with
          | none => (tr, [], .error .invalidPubKey)
          | some sr =>
            if sr.address ≠ address then (tr, [], .error .sighashAddressMismatch)
            else
              match sign_with_fee env.signer env.bot_name
                  ((hexDecode sr.sighash).getD []) with
              | (tr2, .error e) => (tr ++ tr2, [], .error e)
              | (tr2, .ok signCanResult) =>
                match signCanResult with
                | .error e => (tr ++ tr2, [], .error (.signFailed e))
                | .ok signature_hex =>
                  match inject_signature_and_extract_witness
                      message pubkey_hex signature_hex with
                  | .error e => (tr ++ tr2, [], .error (.witnessError e))
                  | .ok witness_b64 =>
                    match env.loginResult with
                    | .error e => (tr ++ tr2, [], .error (.loginFailed e))
                    | .ok (_expiration, user_canister_pubkey) =>
                      match delegationLoop env.delegationCall with
                      | (events, .error e) =>
                          (tr ++ tr2, events, .error (.delegationUnavailable e))
                      | (events, .ok _signed_delegation) =>
                        let principal := bot_principal_bytes user_canister_pubkey
                        if env.authStatus ≠ 200 ∧ env.authStatus ≠ 201 then
                          (tr ++ tr2, events, .error (.jwtExchangeFailed env.authStatus))
                        else
                          match env.authToken with
                          | none => (tr ++ tr2, events, .error .noTokenInResponse)
                          | some jwt =>
                              if jwt = "" then
                                (tr ++ tr2, events, .error .noTokenInResponse)
                              else
                                (tr ++ tr2, events,
                                 .ok ⟨jwt, principal, address, witness_b64, env.bot_name⟩)

/-! ### Session cache load (siwb.py `load_session`) -/

/-- The JSON record persisted by `save_session` (claim-relevant fields;
absent keys are `none`). -/
structure SessionRecord where
  jwt_token : Option String
  bot_principal_text : Option String
  address : Option String
  session_pem_b64 : Option String
  delegation_chain : Option String
  btc_deposit_address : Option String

/-- The state of the on-disk session file. -/
inductive FileState where
  /-- `os.path.exists` is false. -/
  | missing
  /-- The file exists but `json.load` raises (not valid JSON). -/
  | malformed
  /-- The file exists and parses to the given record. -/
  | parsed (record : SessionRecord)

/-- Environment for one `load_session` run. -/
structure LoadEnv where
  /-- `cache_sessions` from odin-bots.toml. -/
  cacheSessions : Bool
  /-- The session file for this (bot, network). -/
  file : FileState
  /-- The `GET /auth` validation call: request error, or HTTP status. -/
  validateResponse : Except String Nat
  /-- `DelegateIdentity` reconstruction from the persisted key material. -/
  reconstruct : Except String Unit

/-- An uncaught exception escaping `load_session`. -/
inductive LoadError where
  /-- `json.JSONDecodeError` from the bare `json.load(f)`. -/
  | jsonDecodeError
deriving DecidableEq

/-- What `load_session` hands back on a cache hit. -/
structure CachedSession where
  jwt_token : String
  bot_principal_text : String
  address : String
  /-- Whether `delegate_identity` was reconstructed (else token-only). -/
  hasDelegateIdentity : Bool
deriving DecidableEq

/-- `load_session(bot_name)` from siwb.py: `none` models the Python `None`
cache-miss return; `.error` models an exception escaping the function.
The JWT-validation request and the result-building `data[...]` accesses sit
inside one `try`, so their failures all fall through to `return None`;
`json.load` sits outside it. -/
def load_session (env : LoadEnv) : Except LoadError (Option CachedSession) :=
  if ¬ env.cacheSessions then .ok none
  else
    match env.file with
    | .missing => .ok none
    | .malformed => .error .jsonDecodeError
    | .parsed record =>
        match record.jwt_token with
        | none => .ok none
        | some jwt =>
            if jwt = "" then .ok none
            else
              match env.validateResponse with
              | .error _ => .ok none
              | .ok status =>
                  if status = 200 then
                    match record.bot_principal_text, record.address with
                    | some bpt, some addr =>
                        let hasDI :=
                          match record.session_pem_b64, record.delegation_chain with
                          | some _, some _ =>
                              match env.reconstruct with
                              | .ok _ => true
                              | .error _ => false
                          | _, _ => false
                        .ok (some ⟨jwt, bpt, addr, hasDI⟩)
                    | _, _ => .ok none
                  else .ok none

/-! ### Concurrency runner (cli/concurrent.py `run_per_bot`) -/

/-- `run_per_bot(fn, bot_names, max_workers)` from concurrent.py.  The
worker pool is modelled by `completion_order`: the order in which futures
complete (a permutation of `bot_names`).  `fn` returns `Except`, modelling
the per-future `try/except` that stores either the result or the raised
exception.  Results are stored in a name-keyed map as futures complete and
read back in `bot_names` order. -/
def run_per_bot {α : Type} (fn : String → Except String α)
    (bot_names : List String) (completion_order : List String) :
    List (String × Option (Except String α)) :=
  if bot_names.isEmpty then []
  else
    let results : String → Option (Except String α) :=
      completion_order.foldl
        (fun m n => Function.update m n (some (fn n))) (fun _ => none)
    bot_names.map (fun n => (n, results n))

/-! ### Supporting lemmas -/

set_option maxRecDepth 400000

theorem h8Bytes_length (st : H8) : (h8Bytes st).length = 32 := by
  simp [h8Bytes, wordBytes]

theorem sha256_length (msg : List Nat) : (sha256 msg).length = 32 :=
  h8Bytes_length _

theorem sha224_length (msg : List Nat) : (sha224 msg).length = 28 := by
  simp [sha224, h8Bytes_length]

theorem bip0322HashBytes_length (message : String) :
    (bip0322HashBytes message).length = 32 :=
  sha256_length _

/-! ### Claim theorems -/

/-- C9: for every message, `taggedHash(message)` is
`SHA256(SHA256(tag) || SHA256(tag) || utf8(message))` with the tag
`"BIP0322-signed-message"`; it is deterministic, the tested inputs hash to
distinct digests, and `taggedHash("")` is the fixed vector
`c90c269c4f8fcbe6880f72a721ddfbf1914268a794cbb21cfafee13770ae19f1`. -/
theorem claim_C9_tagged_hash :
    (∀ message : String,
        bip0322_hash message
          = toHexString (sha256 (sha256 (utf8 "BIP0322-signed-message")
              ++ sha256 (utf8 "BIP0322-signed-message") ++ utf8 message)))
    ∧ utf8 "BIP0322-signed-message"
        = [66, 73, 80, 48, 51, 50, 50, 45, 115, 105, 103, 110, 101, 100,
           45, 109, 101, 115, 115, 97, 103, 101]
    ∧ (∀ m₁ m₂ : String, m₁ = m₂ → bip0322_hash m₁ = bip0322_hash m₂)
    ∧ bip0322_hash ""
        = "c90c269c4f8fcbe6880f72a721ddfbf1914268a794cbb21cfafee13770ae19f1"
    ∧ bip0322_hash "" ≠ bip0322_hash "Hello World"
    ∧ bip0322_hash "Hello World"
        = "f0eb03b1a75ac6d9847f55c624a99169b5dccba2a31f5b23bea77ba270de0a7a" := by
  refine ⟨fun _ => rfl, by decide, fun m₁ m₂ h => h ▸ rfl, by decide, by decide, by decide⟩

/-- C9 witness: the determinism conjunct applied at a concrete input. -/
theorem claim_C9_tagged_hash_witness :
    bip0322_hash "abc" = bip0322_hash "abc" :=
  claim_C9_tagged_hash.2.2.1 "abc" "abc" rfl

/-- C8: for every message and scriptPubKey (of encodable length), the
serialised toSpend transaction has exactly the fixed layout — version 0,
one input with null txid, vout `0xFFFFFFFF`, scriptSig
`OP_0 PUSH32 <taggedHash(message)>` and sequence 0, one output of amount 0
carrying the scriptPubKey, locktime 0 — and its txid is the byte-reversed
double SHA-256 of that serialisation. -/
theorem claim_C8_to_spend_layout :
    ∀ (message : String) (spk : List Nat), spk.length < 253 →
      serialise_to_spend message spk
        = [0, 0, 0, 0]
          ++ [1]
          ++ List.replicate 32 0
          ++ [0xff, 0xff, 0xff, 0xff]
          ++ [34]
          ++ (0x00 :: 0x20 :: bip0322HashBytes message)
          ++ [0, 0, 0, 0]
          ++ [1]
          ++ List.replicate 8 0
          ++ [spk.length]
          ++ spk
          ++ [0, 0, 0, 0]
      ∧ (bip0322HashBytes message).length = 32
      ∧ to_spend_txid_bytes message spk
          = (double_sha256 (serialise_to_spend message spk)).reverse := by
  intro message spk hlen
  have h32 := bip0322HashBytes_length message
  refine ⟨?_, h32, rfl⟩
  have e1 : encode_varint 1 = [1] := by decide
  have e34 : encode_varint 34 = [34] := by decide
  have espk : encode_varint spk.length = [spk.length] := by
    simp [encode_varint, hlen]
  have ele32 : le32 0xFFFFFFFF = [0xff, 0xff, 0xff, 0xff] := by decide
  have ele64 : le64 0 = List.replicate 8 0 := by decide
  have hss : (0x00 :: 0x20 :: bip0322HashBytes message).length = 34 := by
    simp [h32]
  simp only [serialise_to_spend, encode_var_string, hss, e1, e34, espk,
    ele32, ele64]
  simp [List.append_assoc]

/-- C8 witness: the layout theorem applied to a concrete message and a
34-byte P2TR scriptPubKey. -/
theorem claim_C8_to_spend_layout_witness :
    serialise_to_spend "hello" (0x51 :: 0x20 :: List.replicate 32 7)
      = [0, 0, 0, 0]
        ++ [1]
        ++ List.replicate 32 0
        ++ [0xff, 0xff, 0xff, 0xff]
        ++ [34]
        ++ (0x00 :: 0x20 :: bip0322HashBytes "hello")
        ++ [0, 0, 0, 0]
        ++ [1]
        ++ List.replicate 8 0
        ++ [(0x51 :: 0x20 :: List.replicate 32 7).length]
        ++ (0x51 :: 0x20 :: List.replicate 32 7)
        ++ [0, 0, 0, 0] :=
  (claim_C8_to_spend_layout "hello" _ (by decide)).1

theorem b64Val_b64Char : ∀ v < 64, b64Val (b64Char v) = some v := by decide

theorem b64Char_ne_pad : ∀ v < 64, b64Char v ≠ '=' := by decide

theorem hexDigitVal_le (c : Char) (v : Nat) (h : hexDigitVal c = some v) :
    v ≤ 15 := by
  simp only [hexDigitVal] at h
  split at h
  · simp only [Option.some.injEq] at h; omega
  · split at h
    · simp only [Option.some.injEq] at h; omega
    · split at h
      · simp only [Option.some.injEq] at h; omega
      · simp at h

theorem hexDecodeList_lt (cs : List Char) (bs : List Nat)
    (h : hexDecodeList cs = some bs) : ∀ b ∈ bs, b < 256 := by
  induction cs using hexDecodeList.induct generalizing bs with
  | case1 =>
      simp only [hexDecodeList, Option.some.injEq] at h
      simp [← h]
  | case2 => simp [hexDecodeList] at h
  | case3 c1 c2 rest ih =>
      simp only [hexDecodeList, Option.bind_eq_bind, Option.bind_eq_some] at h
      obtain ⟨hv, hh, lv, hl, tl, htl, hbs⟩ := h
      intro b hb
      simp only [pure, Option.some.injEq] at hbs
      rw [← hbs] at hb
      rcases List.mem_cons.mp hb with hb | hb
      · subst hb
        have h1 := hexDigitVal_le c1 hv hh
        have h2 := hexDigitVal_le c2 lv hl
        omega
      · exact ih tl htl b hb

theorem b64_roundtrip (bs : List Nat) (hb : ∀ b ∈ bs, b < 256)
    (h3 : bs.length % 3 = 0) : b64decodeList (b64encodeList bs) = some bs := by
  induction bs using b64encodeList.induct with
  | case1 => rfl
  | case2 a => simp at h3
  | case3 a b => simp at h3
  | case4 a b c rest ih =>
      have ha : a < 256 := hb a (by simp)
      have hbb : b < 256 := hb b (by simp)
      have hc : c < 256 := hb c (by simp)
      have hrest : b64decodeList (b64encodeList rest) = some rest := by
        refine ih (fun x hx => hb x (by simp [hx])) ?_
        simp only [List.length_cons] at h3
        omega
      have hv1 := b64Val_b64Char (a / 4) (by omega)
      have hv2 := b64Val_b64Char (a % 4 * 16 + b / 16) (by omega)
      have hv3 := b64Val_b64Char (b % 16 * 4 + c / 64) (by omega)
      have hv4 := b64Val_b64Char (c % 64) (by omega)
      have hne3 := b64Char_ne_pad (b % 16 * 4 + c / 64) (by omega)
      have hne4 := b64Char_ne_pad (c % 64) (by omega)
      simp only [b64encodeList, b64decodeList, hv1, hv2, hv3, hv4,
        if_neg hne3, if_neg hne4, hrest, Option.some.injEq]
      refine List.cons_eq_cons.mpr ⟨by omega, List.cons_eq_cons.mpr ⟨by omega,
        List.cons_eq_cons.mpr ⟨by omega, rfl⟩⟩⟩

/-- C4: for every signature input that hex-decodes to exactly 64 bytes,
base64-decoding `encode_witness`'s output yields exactly the 66 bytes
`[0x01, 0x40]` followed by the signature; an input decoding to any other
length signals `InvalidSignatureLength` and produces no witness. -/
theorem claim_C4_encode_witness :
    ∀ (signature_hex : String) (sig : List Nat),
      hexDecode signature_hex = some sig →
      (sig.length = 64 →
        encode_witness signature_hex
            = .ok (b64encode (0x01 :: 0x40 :: sig))
          ∧ b64decode (b64encode (0x01 :: 0x40 :: sig))
              = some (0x01 :: 0x40 :: sig)
          ∧ (0x01 :: 0x40 :: sig).length = 66)
      ∧ (sig.length ≠ 64 →
          encode_witness signature_hex
            = .error (.invalidSignatureLength sig.length)) := by
  intro signature_hex sig hdec
  constructor
  · intro h64
    have hlt : ∀ b ∈ (0x01 :: 0x40 :: sig), b < 256 := by
      intro b hb
      rcases List.mem_cons.mp hb with hb | hb
      · omega
      rcases List.mem_cons.mp hb with hb | hb
      · omega
      · exact hexDecodeList_lt _ _ hdec b hb
    have hvs : encode_varint 1 ++ encode_var_string sig = 0x01 :: 0x40 :: sig := by
      simp [encode_varint, encode_var_string, h64]
    refine ⟨?_, ?_, by simp [h64]⟩
    · simp [encode_witness, hdec, h64, hvs]
    · exact b64_roundtrip _ hlt (by simp [h64])
  · intro hne
    simp [encode_witness, hdec, hne]

/-- C4 witness: the theorem applied to a concrete 64-byte signature
(128 hex `a` characters, as in the repository tests) and to a concrete
32-byte input. -/
theorem claim_C4_encode_witness_witness :
    (encode_witness (String.mk (List.replicate 128 'a'))
        = .ok (b64encode (0x01 :: 0x40 :: List.replicate 64 0xaa))
      ∧ b64decode (b64encode (0x01 :: 0x40 :: List.replicate 64 0xaa))
          = some (0x01 :: 0x40 :: List.replicate 64 0xaa)
      ∧ (0x01 :: 0x40 :: List.replicate 64 0xaa).length = 66)
    ∧ encode_witness (String.mk (List.replicate 64 'a'))
        = .error (.invalidSignatureLength 32) := by
  constructor
  · exact (claim_C4_encode_witness (String.mk (List.replicate 128 'a'))
      (List.replicate 64 0xaa) (by decide)).1 (by decide)
  · have h := (claim_C4_encode_witness (String.mk (List.replicate 64 'a'))
      (List.replicate 32 0xaa) (by decide)).2 (by decide)
    simpa using h

/-- C10: for every message, pubkey and signature input,
`inject_signature_and_extract_witness` produces exactly the witness of
`encode_witness`: the witness depends only on the signature bytes, and the
two functions reject any non-64-byte signature identically. -/
theorem claim_C10_witness_equivalence :
    ∀ (m₁ m₂ p₁ p₂ sig : String),
      inject_signature_and_extract_witness m₁ p₁ sig = encode_witness sig
      ∧ inject_signature_and_extract_witness m₁ p₁ sig
          = inject_signature_and_extract_witness m₂ p₂ sig := by
  intro m₁ m₂ p₁ p₂ sig
  exact ⟨rfl, rfl⟩

theorem foldl_update_not_mem {α : Type} (fn : String → Except String α)
    (order : List String) (m : String → Option (Except String α)) (n : String)
    (h : n ∉ order) :
    (order.foldl (fun m x => Function.update m x (some (fn x))) m) n = m n := by
  induction order generalizing m with
  | nil => rfl
  | cons a rest ih =>
      simp only [List.foldl_cons]
      rw [ih _ (fun hx => h (List.mem_cons_of_mem a hx))]
      refine Function.update_noteq (fun hx : n = a => ?_) _ _
      exact h (hx ▸ List.mem_cons_self a rest)

theorem foldl_update_mem {α : Type} (fn : String → Except String α)
    (order : List String) (m : String → Option (Except String α)) (n : String)
    (h : n ∈ order) :
    (order.foldl (fun m x => Function.update m x (some (fn x))) m) n
      = some (fn n) := by
  induction order generalizing m with
  | nil => cases h
  | cons a rest ih =>
      simp only [List.foldl_cons]
      by_cases hn : n ∈ rest
      · exact ih _ hn
      · have hna : n = a := by
          rcases List.mem_cons.mp h with h | h
          · exact h
          · exact absurd h hn
        subst hna
        rw [foldl_update_not_mem fn rest _ n hn, Function.update_same]

/-- C6: for every per-bot operation, every bot-name list and every
completion order of the worker pool, `run_per_bot` returns the
`(botName, resultOrError)` pairs in the original input order, each bot's
entry being exactly its own operation's result or caught exception —
independent of the completion order and of other bots' failures. -/
theorem claim_C6_run_per_bot :
    ∀ {α : Type} (fn : String → Except String α)
      (bot_names completion_order : List String),
      completion_order.Perm bot_names →
      run_per_bot fn bot_names completion_order
        = bot_names.map (fun n => (n, some (fn n))) := by
  intro α fn names order hperm
  unfold run_per_bot
  by_cases hempty : names.isEmpty
  · rw [List.isEmpty_iff.mp hempty]
    simp
  · simp only [if_neg hempty]
    refine List.map_congr_left ?_
    intro n hn
    have hmem : n ∈ order := hperm.mem_iff.mpr hn
    rw [foldl_update_mem fn order _ n hmem]

/-- C6 witness: bots `["a", "b", "c"]` where `b`'s operation raises, with the
workers completing in the order `c, a, b`; the results keep input order and
isolate `b`'s failure. -/
theorem claim_C6_run_per_bot_witness :
    run_per_bot
        (fun n => if n = "b" then (.error "boom" : Except String String)
                  else .ok ("ok-" ++ n))
        ["a", "b", "c"] ["c", "a", "b"]
      = [("a", some (.ok "ok-a")), ("b", some (.error "boom")),
         ("c", some (.ok "ok-c"))] := by
  rw [claim_C6_run_per_bot
    (fun n => if n = "b" then (.error "boom" : Except String String)
              else .ok ("ok-" ++ n))
    ["a", "b", "c"] ["c", "a", "b"] (by decide)]
  rfl

theorem afi_empty (env : SignerEnv) (h : env.feeTokensResult = .ok []) :
    approve_fee_if_required env = ([.getFeeTokens], .ok []) := by
  simp [approve_fee_if_required, h]

theorem afi_ckbtc_ok (env : SignerEnv) (toks : List FeeToken) (ft : FeeToken)
    (blk : Nat) (htoks : env.feeTokensResult = .ok toks)
    (hfind : toks.find? (fun t => t.tokenName = "ckBTC") = some ft)
    (hwallet : env.walletAgent = true)
    (happrove : env.approveResult = .ok blk) :
    approve_fee_if_required env
      = ([.getFeeTokens, .approve (ft.fee + CKBTC_FEE)],
         .ok [⟨"ckBTC", ft.tokenLedger, ft.fee⟩]) := by
  have hne : toks ≠ [] := by
    rintro rfl
    simp at hfind
  simp [approve_fee_if_required, htoks, hfind, hwallet, happrove,
    List.isEmpty_iff, hne]

theorem afi_ckbtc_err (env : SignerEnv) (toks : List FeeToken) (ft : FeeToken)
    (e : String) (htoks : env.feeTokensResult = .ok toks)
    (hfind : toks.find? (fun t => t.tokenName = "ckBTC") = some ft)
    (hwallet : env.walletAgent = true)
    (happrove : env.approveResult = .error e) :
    approve_fee_if_required env
      = ([.getFeeTokens, .approve (ft.fee + CKBTC_FEE)],
         .error (.approveFailed e)) := by
  have hne : toks ≠ [] := by
    rintro rfl
    simp at hfind
  simp [approve_fee_if_required, htoks, hfind, hwallet, happrove,
    List.isEmpty_iff, hne]

/-- The four possible outcomes of the fee check. -/
theorem afi_cases (env : SignerEnv) :
    approve_fee_if_required env = ([.getFeeTokens], .ok [])
    ∨ (∃ e, approve_fee_if_required env = ([.getFeeTokens], .error e))
    ∨ (∃ (ft : FeeToken) (blk : Nat),
        env.approveResult = .ok blk
        ∧ approve_fee_if_required env
            = ([.getFeeTokens, .approve (ft.fee + CKBTC_FEE)],
               .ok [⟨"ckBTC", ft.tokenLedger, ft.fee⟩]))
    ∨ (∃ (ft : FeeToken) (e : SiwbError),
        approve_fee_if_required env
          = ([.getFeeTokens, .approve (ft.fee + CKBTC_FEE)], .error e)) := by
  unfold approve_fee_if_required
  cases hfee : env.feeTokensResult with
  | error e => exact Or.inr (Or.inl ⟨_, rfl⟩)
  | ok toks =>
      by_cases hemp : toks.isEmpty
      · simp [hemp]
      · simp only [if_neg hemp]
        cases hfind : toks.find? (fun t => t.tokenName = "ckBTC") with
        | none => exact Or.inr (Or.inl ⟨_, rfl⟩)
        | some ft =>
            by_cases hw : env.walletAgent
            · simp only [hw, not_true_eq_false, if_false]
              cases happ : env.approveResult with
              | error e => exact Or.inr (Or.inr (Or.inr ⟨ft, _, rfl⟩))
              | ok blk => exact Or.inr (Or.inr (Or.inl ⟨ft, blk, rfl, rfl⟩))
            · exact Or.inr (Or.inl ⟨.noWalletAgent, by simp [hw]⟩)

/-- C2: with an empty fee-token list, `sign` and the fallback `getPublicKey`
issue their priced call with an empty payment and never approve; with a
configured ckBTC fee token of fee `f`, `approve` is called with
`f + CKBTC_FEE` strictly before the priced call, whose payment carries
amount `f`; a failing approve means no priced call at all; and any priced
call with a non-empty payment is preceded by a successful approve of
`amount + CKBTC_FEE`. -/
theorem claim_C2_fee_gating :
    ∀ (env : SignerEnv) (bot : String) (msg : List Nat),
      (env.feeTokensResult = .ok [] →
        sign_with_fee env bot msg
            = ([.getFeeTokens, .pricedSign bot msg []], .ok env.signResult)
        ∧ (∀ e, env.queryResult = .error e →
            (get_public_key env bot).1
              = [.queryGetPublicKey bot, .getFeeTokens,
                 .pricedGetPublicKey bot []]))
      ∧ (∀ toks ft, env.feeTokensResult = .ok toks →
          toks.find? (fun t => t.tokenName = "ckBTC") = some ft →
          env.walletAgent = true →
          (∀ blk, env.approveResult = .ok blk →
            (sign_with_fee env bot msg).1
              = [.getFeeTokens, .approve (ft.fee + CKBTC_FEE),
                 .pricedSign bot msg [⟨"ckBTC", ft.tokenLedger, ft.fee⟩]])
          ∧ (∀ e, env.approveResult = .error e →
              (sign_with_fee env bot msg).1
                = [.getFeeTokens, .approve (ft.fee + CKBTC_FEE)]))
      ∧ (∀ p, p ≠ [] →
          (.pricedSign bot msg p) ∈ (sign_with_fee env bot msg).1 →
          ∃ (pay : Payment) (blk : Nat), p = [pay]
            ∧ env.approveResult = .ok blk
            ∧ (sign_with_fee env bot msg).1
                = [.getFeeTokens, .approve (pay.amount + CKBTC_FEE),
                   .pricedSign bot msg [pay]])
      ∧ (∀ p, p ≠ [] →
          (.pricedGetPublicKey bot p) ∈ (get_public_key env bot).1 →
          ∃ (pay : Payment) (blk : Nat), p = [pay]
            ∧ env.approveResult = .ok blk
            ∧ (get_public_key env bot).1
                = [.queryGetPublicKey bot, .getFeeTokens,
                   .approve (pay.amount + CKBTC_FEE),
                   .pricedGetPublicKey bot [pay]])
      ∧ CKBTC_FEE = 10 := by
  intro env bot msg
  refine ⟨?_, ?_, ?_, ?_, rfl⟩
  · intro hfee
    have hafi := afi_empty env hfee
    refine ⟨by simp [sign_with_fee, hafi], ?_⟩
    intro e hq
    unfold get_public_key
    rw [hq, hafi]
    cases env.pricedPubKeyResult <;> simp
  · intro toks ft htoks hfind hwallet
    constructor
    · intro blk happrove
      have hafi := afi_ckbtc_ok env toks ft blk htoks hfind hwallet happrove
      simp [sign_with_fee, hafi]
    · intro e happrove
      have hafi := afi_ckbtc_err env toks ft e htoks hfind hwallet happrove
      simp [sign_with_fee, hafi]
  · intro p hne hmem
    rcases afi_cases env with hc | ⟨e, hc⟩ | ⟨ft, blk, happ, hc⟩ | ⟨ft, e, hc⟩ <;>
      simp only [sign_with_fee, hc] at hmem ⊢
    · simp at hmem
      exact absurd hmem hne
    · simp at hmem
    · simp at hmem
      subst hmem
      exact ⟨⟨"ckBTC", ft.tokenLedger, ft.fee⟩, blk, rfl, happ, by simp⟩
    · simp at hmem
  · intro p hne hmem
    cases hq : env.queryResult with
    | ok r =>
        simp [get_public_key, hq] at hmem
    | error e0 =>
        rcases afi_cases env with hc | ⟨e, hc⟩ | ⟨ft, blk, happ, hc⟩
          | ⟨ft, e, hc⟩
        · cases hpk : env.pricedPubKeyResult <;>
            simp [get_public_key, hq, hc, hpk] at hmem <;>
            exact absurd hmem hne
        · simp [get_public_key, hq, hc] at hmem
        · cases hpk : env.pricedPubKeyResult with
          | error e1 =>
              simp only [get_public_key, hq, hc, hpk] at hmem ⊢
              simp at hmem
              subst hmem
              exact ⟨⟨"ckBTC", ft.tokenLedger, ft.fee⟩, blk, rfl, happ, by simp⟩
          | ok r =>
              simp only [get_public_key, hq, hc, hpk] at hmem ⊢
              simp at hmem
              subst hmem
              exact ⟨⟨"ckBTC", ft.tokenLedger, ft.fee⟩, blk, rfl, happ, by simp⟩
        · simp [get_public_key, hq, hc] at hmem

/-- C2 witness: the fee-gating theorem applied to a concrete environment
with the spec's fee token `{fee: 100, ledgerFee: 10}`, and to a concrete
environment with no fee tokens. -/
theorem claim_C2_fee_gating_witness :
    (sign_with_fee
        ⟨.error "miss", .ok [⟨"ckBTC", "ledger", 100⟩], .ok 42, true,
         .ok ("pk", "addr"), .ok "sig"⟩ "bot-1" [0]).1
      = [.getFeeTokens, .approve 110,
         .pricedSign "bot-1" [0] [⟨"ckBTC", "ledger", 100⟩]]
    ∧ sign_with_fee
        ⟨.error "miss", .ok [], .ok 42, true, .ok ("pk", "addr"), .ok "sig"⟩
        "bot-2" [1]
      = ([.getFeeTokens, .pricedSign "bot-2" [1] []], .ok (.ok "sig")) := by
  constructor
  · have h := ((claim_C2_fee_gating
      ⟨.error "miss", .ok [⟨"ckBTC", "ledger", 100⟩], .ok 42, true,
       .ok ("pk", "addr"), .ok "sig"⟩ "bot-1" [0]).2.1
      [⟨"ckBTC", "ledger", 100⟩] ⟨"ckBTC", "ledger", 100⟩ rfl (by rfl) rfl).1
      42 rfl
    simpa using h
  · have h := ((claim_C2_fee_gating
      ⟨.error "miss", .ok [], .ok 42, true, .ok ("pk", "addr"), .ok "sig"⟩
      "bot-2" [1]).1 rfl).1
    simpa using h
/-- C3 counterexample: caching is enabled, the session file exists but is
not valid JSON, and the validation endpoint would answer 200.  The claim
requires a cache-miss result (`None`) for a malformed record, but
`load_session` raises: `json.load(f)` sits outside the `try` block, so
`json.JSONDecodeError` escapes to the caller. -/
theorem claim_C3_counterexample :
    load_session ⟨true, .malformed, .ok 200, .ok ()⟩ = .error .jsonDecodeError
    ∧ load_session ⟨true, .malformed, .ok 200, .ok ()⟩ ≠ .ok none := by
  exact ⟨rfl, by simp [load_session]⟩

/-- C3 (amended): for every stored session record that parses as JSON,
session-cache load returns a cache-miss result (`None`) rather than raising
whenever validation fails — a record missing the token, or a
token-validation request that errors or does not return 200 — so the caller
falls through to a fresh login; only an unparseable record raises.  On a
200 validation of a complete record the cached session is returned. -/
theorem claim_C3_load_session :
    ∀ (env : LoadEnv) (record : SessionRecord),
      env.file = .parsed record →
      ((∀ e, load_session env ≠ .error e)
        ∧ (record.jwt_token = none ∨ record.jwt_token = some "" →
            load_session env = .ok none)
        ∧ (∀ e, env.validateResponse = .error e → load_session env = .ok none)
        ∧ (∀ s, env.validateResponse = .ok s → s ≠ 200 →
            load_session env = .ok none)
        ∧ (∀ jwt bpt addr, env.cacheSessions = true →
            record.jwt_token = some jwt → jwt ≠ "" →
            record.bot_principal_text = some bpt → record.address = some addr →
            env.validateResponse = .ok 200 →
            ∃ s, load_session env = .ok (some s)
              ∧ s.jwt_token = jwt ∧ s.bot_principal_text = bpt
              ∧ s.address = addr)) := by
  intro env record hfile
  by_cases hcache : env.cacheSessions
  · refine ⟨?_, ?_, ?_, ?_, ?_⟩
    · intro e
      simp only [load_session, hcache, hfile]
      cases hjwt : record.jwt_token with
      | none => simp
      | some jwt =>
          by_cases hempty : jwt = ""
          · simp [hempty]
          · simp only [not_true_eq_false, if_false, if_neg hempty]
            cases hval : env.validateResponse with
            | error e' => simp
            | ok s =>
                by_cases hs : s = 200
                · subst hs
                  simp only [if_pos rfl]
                  cases record.bot_principal_text <;>
                    cases record.address <;> simp
                · simp [hs]
    · intro hjwt
      rcases hjwt with hjwt | hjwt <;> simp [load_session, hcache, hfile, hjwt]
    · intro e hval
      simp only [load_session, hcache, hfile]
      cases hjwt : record.jwt_token with
      | none => simp
      | some jwt =>
          by_cases hempty : jwt = ""
          · simp [hempty]
          · simp [hempty, hval]
    · intro s hval hs
      simp only [load_session, hcache, hfile]
      cases hjwt : record.jwt_token with
      | none => simp
      | some jwt =>
          by_cases hempty : jwt = ""
          · simp [hempty]
          · simp [hempty, hval, hs]
    · intro jwt bpt addr _ hjwt hempty hbpt haddr hval
      refine ⟨⟨jwt, bpt, addr,
        match record.session_pem_b64, record.delegation_chain with
        | some _, some _ =>
            (match env.reconstruct with | .ok _ => true | .error _ => false)
        | _, _ => false⟩, ?_, rfl, rfl, rfl⟩
      simp [load_session, hcache, hfile, hjwt, hempty, hval, hbpt, haddr]
  · refine ⟨?_, ?_, ?_, ?_, ?_⟩ <;>
      simp_all [load_session, hcache]

/-- C3 witness: the amended theorem applied to concrete environments —
a 401 validation answer yields a cache-miss, and a 200 answer on a complete
record yields the cached session. -/
theorem claim_C3_load_session_witness :
    load_session
        ⟨true, .parsed ⟨some "jwt", some "principal", some "bc1p", none, none,
          none⟩, .ok 401, .ok ()⟩
      = .ok none
    ∧ ∃ s, load_session
        ⟨true, .parsed ⟨some "jwt", some "principal", some "bc1p", none, none,
          none⟩, .ok 200, .ok ()⟩
      = .ok (some s) ∧ s.bot_principal_text = "principal" := by
  constructor
  · exact (claim_C3_load_session
      ⟨true, .parsed ⟨some "jwt", some "principal", some "bc1p", none, none,
        none⟩, .ok 401, .ok ()⟩ _ rfl).2.2.2.1 401 rfl (by decide)
  · obtain ⟨s, hs, _, hbpt, _⟩ := (claim_C3_load_session
      ⟨true, .parsed ⟨some "jwt", some "principal", some "bc1p", none, none,
        none⟩, .ok 200, .ok ()⟩ _ rfl).2.2.2.2 "jwt" "principal" "bc1p"
      rfl rfl (by decide) rfl rfl rfl
    exact ⟨s, hs, hbpt⟩

/-- Errors on attempts 0–3, success on attempt 4: the loop stops after
exactly five calls with a 2-second sleep after each failure. -/
theorem delegationLoop_ok_at_4 (call : Nat → CanResult SignedDelegation)
    (es : Nat → String) (d : SignedDelegation)
    (herr : ∀ i < 4, call i = .error (es i)) (hok : call 4 = .ok d) :
    delegationLoop call
      = ([.delegationCall 0, .sleepSeconds 2, .delegationCall 1,
          .sleepSeconds 2, .delegationCall 2, .sleepSeconds 2,
          .delegationCall 3, .sleepSeconds 2, .delegationCall 4], .ok d) := by
  have h0 := herr 0 (by norm_num)
  have h1 := herr 1 (by norm_num)
  have h2 := herr 2 (by norm_num)
  have h3 := herr 3 (by norm_num)
  simp [delegationLoop, delegationLoopAux, h0, h1, h2, h3, hok]

/-- Errors on all five attempts: the loop stops after exactly five calls and
the last error is reported. -/
theorem delegationLoop_all_err (call : Nat → CanResult SignedDelegation)
    (es : Nat → String) (herr : ∀ i < 5, call i = .error (es i)) :
    delegationLoop call
      = ([.delegationCall 0, .sleepSeconds 2, .delegationCall 1,
          .sleepSeconds 2, .delegationCall 2, .sleepSeconds 2,
          .delegationCall 3, .sleepSeconds 2, .delegationCall 4,
          .sleepSeconds 2], .error (es 4)) := by
  have h0 := herr 0 (by norm_num)
  have h1 := herr 1 (by norm_num)
  have h2 := herr 2 (by norm_num)
  have h3 := herr 3 (by norm_num)
  have h4 := herr 4 (by norm_num)
  simp [delegationLoop, delegationLoopAux, h0, h1, h2, h3, h4]

/-- `compute_sighash` succeeds whenever `derive_address` does, and returns
exactly the derived address. -/
theorem compute_sighash_address (m p a : String)
    (h : derive_address p = some a) :
    ∃ sh, compute_sighash m p = some ⟨sh, a⟩ := by
  cases hd : hexDecode p with
  | none => simp [derive_address, hd] at h
  | some bs =>
      by_cases hlen : bs.length ≠ 32
      · simp [derive_address, hd, hlen] at h
      · cases hq : taprootOutputKeyX (bytesToNatBE bs) with
        | none => simp [derive_address, hd, hlen, hq] at h
        | some qx =>
            have ha : a = p2trAddressOfX qx := by
              simp [derive_address, hd, hlen, hq] at h
              exact h.symm
            subst ha
            exact ⟨toHexString (taprootSighashDefault
              (double_sha256 (serialise_to_spend m (p2trScriptPubKey qx)))
              (p2trScriptPubKey qx)), by simp [compute_sighash, hd, hlen, hq]⟩

/-- Full characterization of `siwb_login` when every pre-delegation step
succeeds (free public key, empty fee schedule, valid 64-byte signature,
successful login and token exchange): the emitted events are exactly the
delegation loop's, and the outcome follows the loop's outcome, a success
carrying the principal `sha224(userCanisterPubkey) || 0x02`. -/
theorem siwb_login_spec (env : LoginEnv) (pk addr msg sig : String)
    (sb : List Nat) (exp : Nat) (ucp : List Nat) (jwt : String)
    (hq : env.signer.queryResult = .ok (pk, addr))
    (hda : derive_address pk = some addr)
    (hprep : env.prepareResult = .ok msg)
    (hfee : env.signer.feeTokensResult = .ok [])
    (hsig : env.signer.signResult = .ok sig)
    (hsb : hexDecode sig = some sb) (h64 : sb.length = 64)
    (hlogin : env.loginResult = .ok (exp, ucp))
    (hauth : env.authStatus = 200)
    (htok : env.authToken = some jwt) (hjwt : jwt ≠ "") :
    (siwb_login env).2.1 = (delegationLoop env.delegationCall).1
    ∧ (∀ d, (delegationLoop env.delegationCall).2 = .ok d →
        (siwb_login env).2.2
          = .ok ⟨jwt, bot_principal_bytes ucp, addr,
                 b64encode (0x01 :: 0x40 :: sb), env.bot_name⟩)
    ∧ (∀ e, (delegationLoop env.delegationCall).2 = .error e →
        (siwb_login env).2.2 = .error (.delegationUnavailable e)) := by
  obtain ⟨sh, hcs⟩ := compute_sighash_address msg pk addr hda
  have hgp : get_public_key env.signer env.bot_name
      = ([.queryGetPublicKey env.bot_name], .ok (pk, addr)) := by
    simp [get_public_key, hq]
  have hafi := afi_empty env.signer hfee
  have hsw : sign_with_fee env.signer env.bot_name ((hexDecode sh).getD [])
      = ([.getFeeTokens,
          .pricedSign env.bot_name ((hexDecode sh).getD []) []],
         .ok (.ok sig)) := by
    simp [sign_with_fee, hafi, hsig]
  have hvs : encode_varint 1 ++ encode_var_string sb = 0x01 :: 0x40 :: sb := by
    simp [encode_varint, encode_var_string, h64]
  have hwit : inject_signature_and_extract_witness msg pk sig
      = .ok (b64encode (0x01 :: 0x40 :: sb)) := by
    simp [inject_signature_and_extract_witness, hsb, h64, hvs]
  rcases hloop : delegationLoop env.delegationCall with ⟨events, res⟩
  cases res with
  | ok d =>
      refine ⟨?_, ?_, ?_⟩ <;>
        simp only [siwb_login, hgp, hda, if_neg (by simp : ¬ addr ≠ addr),
          hprep, hcs, hsw, hwit, hlogin, hloop, hauth, htok] <;>
        simp [hjwt]
  | error e =>
      refine ⟨?_, ?_, ?_⟩ <;>
        simp only [siwb_login, hgp, hda, if_neg (by simp : ¬ addr ≠ addr),
          hprep, hcs, hsw, hwit, hlogin, hloop, hauth, htok] <;>
        simp [hjwt]

/-- C1: for the delegation-fetch step of a login whose earlier steps all
succeed: if `siwb_get_delegation` errors on attempts 1–4 and succeeds on
attempt 5, the login proceeds to a session and exactly 5 delegation calls
are made — never more, never fewer — with a 2-second sleep between
consecutive attempts; if all 5 attempts error, the login fails with
`DelegationUnavailable` (no sixth attempt). -/
theorem claim_C1_delegation_retry :
    ∀ (env : LoginEnv) (pk addr msg sig : String) (sb : List Nat) (exp : Nat)
      (ucp : List Nat) (jwt : String) (es : Nat → String)
      (d : SignedDelegation),
      env.signer.queryResult = .ok (pk, addr) →
      derive_address pk = some addr →
      env.prepareResult = .ok msg →
      env.signer.feeTokensResult = .ok [] →
      env.signer.signResult = .ok sig →
      hexDecode sig = some sb → sb.length = 64 →
      env.loginResult = .ok (exp, ucp) →
      env.authStatus = 200 →
      env.authToken = some jwt → jwt ≠ "" →
      ((∀ i < 4, env.delegationCall i = .error (es i)) →
        env.delegationCall 4 = .ok d →
          (siwb_login env).2.1
            = [.delegationCall 0, .sleepSeconds 2, .delegationCall 1,
               .sleepSeconds 2, .delegationCall 2, .sleepSeconds 2,
               .delegationCall 3, .sleepSeconds 2, .delegationCall 4]
          ∧ delegationCallCount (siwb_login env).2.1 = 5
          ∧ (siwb_login env).2.2
              = .ok ⟨jwt, bot_principal_bytes ucp, addr,
                     b64encode (0x01 :: 0x40 :: sb), env.bot_name⟩)
      ∧ ((∀ i < 5, env.delegationCall i = .error (es i)) →
          (siwb_login env).2.1
            = [.delegationCall 0, .sleepSeconds 2, .delegationCall 1,
               .sleepSeconds 2, .delegationCall 2, .sleepSeconds 2,
               .delegationCall 3, .sleepSeconds 2, .delegationCall 4,
               .sleepSeconds 2]
          ∧ delegationCallCount (siwb_login env).2.1 = 5
          ∧ (siwb_login env).2.2
              = .error (.delegationUnavailable (es 4))) := by
  intro env pk addr msg sig sb exp ucp jwt es d hq hda hprep hfee hsig hsb
    h64 hlogin hauth htok hjwt
  obtain ⟨htrace, hok, herr⟩ := siwb_login_spec env pk addr msg sig sb exp
    ucp jwt hq hda hprep hfee hsig hsb h64 hlogin hauth htok hjwt
  constructor
  · intro h4 hok4
    have hloop := delegationLoop_ok_at_4 env.delegationCall es d h4 hok4
    refine ⟨?_, ?_, ?_⟩
    · rw [htrace, hloop]
    · rw [htrace, hloop]
      rfl
    · exact hok d (by rw [hloop])
  · intro h5
    have hloop := delegationLoop_all_err env.delegationCall es h5
    refine ⟨?_, ?_, ?_⟩
    · rw [htrace, hloop]
    · rw [htrace, hloop]
      rfl
    · exact herr (es 4) (by rw [hloop])

/-- Concrete x-only public key (the repository's test vector). -/
def tvPk : String :=
  "cc8a4bc64d897bddc5fbc2f670f7a8ba0b386779106cf1223c6fc5d7cd6fc115"

/-- The P2TR mainnet address of `tvPk` (the repository's test vector). -/
def tvAddr : String :=
  "bc1p5cyxnuxmeuwuvkwfem96lqzszd02n6xdcjrs20cac6yqjjwudpxqkedrcr"

/-- A concrete 64-byte signature as hex (128 `a` characters). -/
def tvSig : String := String.mk (List.replicate 128 'a')

/-- Concrete signer environment: free query hit, no fee tokens. -/
def tvSigner : SignerEnv :=
  ⟨.ok (tvPk, tvAddr), .ok [], .ok 0, true, .ok ("", ""), .ok tvSig⟩

/-- Concrete login environment whose delegation call fails on the first four
attempts and succeeds on the fifth. -/
def tvEnv : LoginEnv :=
  ⟨tvSigner, "bot-1", .ok "challenge", [9], .ok (99, [5, 6]),
   fun i => if i < 4 then .error "not found" else .ok ⟨[1], 7, [2]⟩,
   200, some "tok"⟩

/-- Concrete login environment whose delegation call always fails. -/
def tvEnvB : LoginEnv := { tvEnv with delegationCall := fun _ => .error "gone" }

/-- C1 witness: the retry theorem applied to the two concrete environments —
four errors then success, and five errors. -/
theorem claim_C1_delegation_retry_witness :
    ((siwb_login tvEnv).2.1
        = [.delegationCall 0, .sleepSeconds 2, .delegationCall 1,
           .sleepSeconds 2, .delegationCall 2, .sleepSeconds 2,
           .delegationCall 3, .sleepSeconds 2, .delegationCall 4]
      ∧ delegationCallCount (siwb_login tvEnv).2.1 = 5
      ∧ (siwb_login tvEnv).2.2
          = .ok ⟨"tok", bot_principal_bytes [5, 6], tvAddr,
                 b64encode (0x01 :: 0x40 :: List.replicate 64 0xaa), "bot-1"⟩)
    ∧ ((siwb_login tvEnvB).2.1
        = [.delegationCall 0, .sleepSeconds 2, .delegationCall 1,
           .sleepSeconds 2, .delegationCall 2, .sleepSeconds 2,
           .delegationCall 3, .sleepSeconds 2, .delegationCall 4,
           .sleepSeconds 2]
      ∧ delegationCallCount (siwb_login tvEnvB).2.1 = 5
      ∧ (siwb_login tvEnvB).2.2
          = .error (.delegationUnavailable "gone")) := by
  have hda : derive_address tvPk = some tvAddr := by decide
  constructor
  · exact (claim_C1_delegation_retry tvEnv tvPk tvAddr "challenge" tvSig
      (List.replicate 64 0xaa) 99 [5, 6] "tok" (fun _ => "not found")
      ⟨[1], 7, [2]⟩ rfl hda rfl rfl rfl (by decide) (by decide) rfl rfl rfl
      (by decide)).1 (by decide) (by decide)
  · exact (claim_C1_delegation_retry tvEnvB tvPk tvAddr "challenge" tvSig
      (List.replicate 64 0xaa) 99 [5, 6] "tok" (fun _ => "gone")
      ⟨[1], 7, [2]⟩ rfl hda rfl rfl rfl (by decide) (by decide) rfl rfl rfl
      (by decide)).2 (by decide)

/-- C7: the bot principal is derived deterministically as the 29 bytes
`sha224(userCanisterPublicKeyBytes) || 0x02`, and a successful login's
session carries exactly that principal for the user-canister public key the
login step returned — no other derivation path. -/
theorem claim_C7_principal_derivation :
    (∀ ucp, bot_principal_bytes ucp = sha224 ucp ++ [0x02]
      ∧ (bot_principal_bytes ucp).length = 29
      ∧ (sha224 ucp).length = 28)
    ∧ (∀ (env : LoginEnv) (pk addr msg sig : String) (sb : List Nat)
        (exp : Nat) (ucp : List Nat) (jwt : String) (d : SignedDelegation),
        env.signer.queryResult = .ok (pk, addr) →
        derive_address pk = some addr →
        env.prepareResult = .ok msg →
        env.signer.feeTokensResult = .ok [] →
        env.signer.signResult = .ok sig →
        hexDecode sig = some sb → sb.length = 64 →
        env.loginResult = .ok (exp, ucp) →
        env.authStatus = 200 →
        env.authToken = some jwt → jwt ≠ "" →
        (delegationLoop env.delegationCall).2 = .ok d →
        ∃ s, (siwb_login env).2.2 = .ok s
          ∧ s.bot_principal_bytes = sha224 ucp ++ [0x02]) := by
  constructor
  · intro ucp
    refine ⟨rfl, ?_, sha224_length ucp⟩
    simp [bot_principal_bytes, sha224_length]
  · intro env pk addr msg sig sb exp ucp jwt d hq hda hprep hfee hsig hsb
      h64 hlogin hauth htok hjwt hloop
    obtain ⟨_, hok, _⟩ := siwb_login_spec env pk addr msg sig sb exp ucp jwt
      hq hda hprep hfee hsig hsb h64 hlogin hauth htok hjwt
    exact ⟨_, hok d hloop, rfl⟩

/-- C7 witness: the principal theorem applied to the concrete environment
`tvEnv` and to a concrete user-canister public key. -/
theorem claim_C7_principal_derivation_witness :
    (bot_principal_bytes [5, 6] = sha224 [5, 6] ++ [0x02]
      ∧ (bot_principal_bytes [5, 6]).length = 29
      ∧ (sha224 [5, 6]).length = 28)
    ∧ ∃ s, (siwb_login tvEnv).2.2 = .ok s
        ∧ s.bot_principal_bytes = sha224 [5, 6] ++ [0x02] := by
  constructor
  · exact claim_C7_principal_derivation.1 [5, 6]
  · exact claim_C7_principal_derivation.2 tvEnv tvPk tvAddr "challenge"
      tvSig (List.replicate 64 0xaa) 99 [5, 6] "tok" ⟨[1], 7, [2]⟩ rfl
      (by decide) rfl rfl rfl (by decide) (by decide) rfl rfl rfl (by decide)
      (by decide)

theorem wordBytes_lt (w : Nat) : ∀ b ∈ wordBytes w, b < 256 := by
  intro b hb
  simp [wordBytes] at hb
  rcases hb with rfl | rfl | rfl | rfl <;> exact Nat.mod_lt _ (by norm_num)

theorem h8Bytes_lt (st : H8) : ∀ b ∈ h8Bytes st, b < 256 := by
  intro b hb
  simp only [h8Bytes, List.mem_append] at hb
  rcases hb with ((((((hb | hb) | hb) | hb) | hb) | hb) | hb) | hb <;>
    exact wordBytes_lt _ b hb

theorem sha256_lt (msg : List Nat) : ∀ b ∈ sha256 msg, b < 256 :=
  h8Bytes_lt _

theorem taprootSighashDefault_lt (a b : List Nat) :
    ∀ x ∈ taprootSighashDefault a b, x < 256 :=
  sha256_lt _

theorem taprootSighashDefault_length (a b : List Nat) :
    (taprootSighashDefault a b).length = 32 :=
  sha256_length _

theorem foldl_base256 (t : List Nat) :
    ∀ acc, t.foldl (fun a b => a * 256 + b) acc
      = 256 ^ t.length * acc + t.foldl (fun a b => a * 256 + b) 0 := by
  induction t with
  | nil => intro acc; simp
  | cons b t ih =>
      intro acc
      simp only [List.foldl_cons, List.length_cons]
      rw [ih (acc * 256 + b), ih (0 * 256 + b)]
      ring

theorem bytesToNatBE_cons (b : Nat) (t : List Nat) :
    bytesToNatBE (b :: t) = 256 ^ t.length * b + bytesToNatBE t := by
  unfold bytesToNatBE
  simp only [List.foldl_cons]
  rw [foldl_base256 t (0 * 256 + b)]
  ring_nf

theorem bytesToNatBE_lt (bs : List Nat) (h : ∀ b ∈ bs, b < 256) :
    bytesToNatBE bs < 256 ^ bs.length := by
  induction bs with
  | nil => simp [bytesToNatBE]
  | cons b t ih =>
      have hb : b < 256 := h b (by simp)
      have ht := ih (fun x hx => h x (by simp [hx]))
      rw [bytesToNatBE_cons]
      calc 256 ^ t.length * b + bytesToNatBE t
          < 256 ^ t.length * b + 256 ^ t.length := by omega
        _ = 256 ^ t.length * (b + 1) := by ring
        _ ≤ 256 ^ t.length * 256 := Nat.mul_le_mul_left _ (by omega)
        _ = 256 ^ (b :: t).length := by
            simp [List.length_cons, pow_succ]

theorem bytesToNatBE_inj (bs₁ : List Nat) :
    ∀ bs₂, (∀ b ∈ bs₁, b < 256) → (∀ b ∈ bs₂, b < 256) →
      bs₁.length = bs₂.length → bytesToNatBE bs₁ = bytesToNatBE bs₂ →
      bs₁ = bs₂ := by
  induction bs₁ with
  | nil =>
      intro bs₂ _ _ hlen _
      cases bs₂ with
      | nil => rfl
      | cons b t => simp at hlen
  | cons b₁ t₁ ih =>
      intro bs₂ h₁ h₂ hlen heq
      cases bs₂ with
      | nil => simp at hlen
      | cons b₂ t₂ =>
          simp only [List.length_cons, Nat.add_right_cancel_iff] at hlen
          rw [bytesToNatBE_cons, bytesToNatBE_cons, hlen] at heq
          have hr₁ : bytesToNatBE t₁ < 256 ^ t₂.length := by
            rw [← hlen]
            exact bytesToNatBE_lt t₁ (fun x hx => h₁ x (by simp [hx]))
          have hr₂ : bytesToNatBE t₂ < 256 ^ t₂.length :=
            bytesToNatBE_lt t₂ (fun x hx => h₂ x (by simp [hx]))
          have hK0 : 0 < 256 ^ t₂.length := Nat.pos_pow_of_pos _ (by norm_num)
          have hb : b₁ = b₂ := by
            have e1 : (256 ^ t₂.length * b₁ + bytesToNatBE t₁)
                / 256 ^ t₂.length = b₁ := by
              rw [Nat.mul_add_div hK0, Nat.div_eq_of_lt hr₁]
              omega
            have e2 : (256 ^ t₂.length * b₂ + bytesToNatBE t₂)
                / 256 ^ t₂.length = b₂ := by
              rw [Nat.mul_add_div hK0, Nat.div_eq_of_lt hr₂]
              omega
            rw [← e1, ← e2, heq]
          subst hb
          have ht : bytesToNatBE t₁ = bytesToNatBE t₂ := by omega
          rw [ih t₂ (fun x hx => h₁ x (by simp [hx]))
            (fun x hx => h₂ x (by simp [hx])) hlen ht]

/-- C5 counterexample: universal message-distinctness of the sighash is
impossible — `computeSighash` maps unboundedly many messages into 32-byte
digests, so by pigeonhole some two distinct messages under the same valid
pubkey share a sighash result.  This refutes the claim's "differs for
distinct messages msg1 != msg2" read over all messages. -/
theorem claim_C5_counterexample :
    ¬ (∀ (p a m₁ m₂ : String), derive_address p = some a → m₁ ≠ m₂ →
        compute_sighash m₁ p ≠ compute_sighash m₂ p) := by
  intro hclaim
  have h1 : (hexDecode tvPk).isSome = true := by decide
  obtain ⟨bs, hd⟩ := Option.isSome_iff_exists.mp h1
  have hlen : bs.length = 32 := by
    have h2 : (hexDecode tvPk).map List.length = some 32 := by decide
    rw [hd] at h2
    simpa using h2
  have h3 : ((hexDecode tvPk).bind
      (fun bs => taprootOutputKeyX (bytesToNatBE bs))).isSome = true := by
    decide
  rw [hd] at h3
  simp only [Option.some_bind] at h3
  obtain ⟨qx, hq⟩ := Option.isSome_iff_exists.mp h3
  have hlen' : ¬ bs.length ≠ 32 := by omega
  have hda : derive_address tvPk = some (p2trAddressOfX qx) := by
    simp [derive_address, hd, hlen', hq]
  have hcs : ∀ m, compute_sighash m tvPk
      = some ⟨toHexString (taprootSighashDefault
            (double_sha256 (serialise_to_spend m (p2trScriptPubKey qx)))
            (p2trScriptPubKey qx)), p2trAddressOfX qx⟩ := by
    intro m
    simp [compute_sighash, hd, hlen', hq]
  obtain ⟨m₁, m₂, hne, hFeq⟩ := Finite.exists_ne_map_eq_of_infinite
    (fun m : String =>
      (⟨bytesToNatBE (taprootSighashDefault
          (double_sha256 (serialise_to_spend m (p2trScriptPubKey qx)))
          (p2trScriptPubKey qx)),
        by
          have hl := taprootSighashDefault_length
            (double_sha256 (serialise_to_spend m (p2trScriptPubKey qx)))
            (p2trScriptPubKey qx)
          have hb := bytesToNatBE_lt _ (taprootSighashDefault_lt
            (double_sha256 (serialise_to_spend m (p2trScriptPubKey qx)))
            (p2trScriptPubKey qx))
          rw [hl] at hb
          exact hb⟩ : Fin (256 ^ 32)))
  have hdig : taprootSighashDefault
        (double_sha256 (serialise_to_spend m₁ (p2trScriptPubKey qx)))
        (p2trScriptPubKey qx)
      = taprootSighashDefault
        (double_sha256 (serialise_to_spend m₂ (p2trScriptPubKey qx)))
        (p2trScriptPubKey qx) := by
    have hv := congrArg Fin.val hFeq
    simp only at hv
    refine bytesToNatBE_inj _ _ (taprootSighashDefault_lt _ _)
      (taprootSighashDefault_lt _ _) ?_ hv
    rw [taprootSighashDefault_length, taprootSighashDefault_length]
  exact hclaim tvPk (p2trAddressOfX qx) m₁ m₂ hda hne
    (by rw [hcs m₁, hcs m₂, hdig])

/-- C5 (amended): `computeSighash` is deterministic; for every message and
every valid pubkey its returned address equals `deriveAddress(pubkey)`; and
the sighashes of the repository's tested message pair differ under the test
pubkey.  (Universal distinctness over all message pairs is refuted by the
counterexample; distinctness is asserted for the tested inputs, as for the
tagged hash.) -/
theorem claim_C5_sighash_properties :
    (∀ m p, compute_sighash m p = compute_sighash m p)
    ∧ (∀ m p a, derive_address p = some a →
        ∃ sh, compute_sighash m p = some ⟨sh, a⟩)
    ∧ compute_sighash "message 1" tvPk ≠ compute_sighash "message 2" tvPk := by
  refine ⟨fun _ _ => rfl, compute_sighash_address, ?_⟩
  decide

/-- C5 witness: the address-equality conjunct applied at the repository's
test pubkey and its known P2TR address. -/
theorem claim_C5_sighash_properties_witness :
    ∃ sh, compute_sighash "hello odin" tvPk = some ⟨sh, tvAddr⟩ :=
  claim_C5_sighash_properties.2.1 "hello odin" tvPk tvAddr (by decide)

end OdinBots
